import Mathlib

/-!
Shallow embedding of `script_viajes.py` (trip map generation pipeline).

Python strings are modelled as `List Char` (`Str`).  Coordinate numerics
(floats in the source) are only ever carried verbatim, never computed with,
so they are modelled as `Int`.  External services (Nominatim geocoding,
OSRM routing) are modelled as oracle functions passed in as parameters; an
HTTP/network error (`requests` exception, `raise_for_status`) is an `err`
response, which the embedded code turns into `Except.error` exactly where
the Python code would raise.
-/

/-- Python strings, modelled as character lists. -/
abbrev Str := List Char

/-- Convert a Lean string literal to the `Str` model. -/
def str (s : String) : Str := s.toList

/-- Python `str.isspace`-style whitespace, the set used by `str.strip()` and
`str.split()` for ASCII input: space, tab, newline, carriage return,
vertical tab, form feed. -/
def pyIsSpace (c : Char) : Bool :=
  c == ' ' || c == '\t' || c == '\n' || c == '\r' || c == '\x0b' || c == '\x0c'

/-- Python `str.lower()` restricted to the alphabet this feed uses
(ASCII letters plus the Spanish uppercase letters). -/
def pyToLower (c : Char) : Char :=
  match c with
  | 'A' => 'a' | 'B' => 'b' | 'C' => 'c' | 'D' => 'd' | 'E' => 'e'
  | 'F' => 'f' | 'G' => 'g' | 'H' => 'h' | 'I' => 'i' | 'J' => 'j'
  | 'K' => 'k' | 'L' => 'l' | 'M' => 'm' | 'N' => 'n' | 'O' => 'o'
  | 'P' => 'p' | 'Q' => 'q' | 'R' => 'r' | 'S' => 's' | 'T' => 't'
  | 'U' => 'u' | 'V' => 'v' | 'W' => 'w' | 'X' => 'x' | 'Y' => 'y'
  | 'Z' => 'z'
  | 'Á' => 'á' | 'É' => 'é' | 'Í' => 'í' | 'Ó' => 'ó' | 'Ú' => 'ú'
  | 'Ü' => 'ü' | 'Ñ' => 'ñ'
  | c => c

/-- Python `str.lower()` on a whole string. -/
def pyLower (s : Str) : Str := s.map pyToLower

/-- Python `str.strip()`: drop leading and trailing whitespace. -/
def pyStrip (s : Str) : Str :=
  ((s.dropWhile pyIsSpace).reverse.dropWhile pyIsSpace).reverse

/-- Worker for `pySplitWS`: accumulates the current word (reversed). -/
def splitWSAux : Str → Str → List Str
  | [], acc => if acc = [] then [] else [acc.reverse]
  | c :: cs, acc =>
    if pyIsSpace c then
      if acc = [] then splitWSAux cs [] else acc.reverse :: splitWSAux cs []
    else splitWSAux cs (c :: acc)

/-- Python `str.split()` with no separator: split on runs of whitespace,
dropping empty pieces. -/
def pySplitWS (s : Str) : List Str := splitWSAux s []

/-- Python `sep.join(xs)`. -/
def pyJoin (sep : Str) : List Str → Str
  | [] => []
  | [w] => w
  | w :: ws => w ++ sep ++ pyJoin sep ws

/-- `normalize_place` from the source:
`" ".join(str(s).strip().lower().split())`. -/
def normalize_place (s : Str) : Str :=
  pyJoin [' '] (pySplitWS (pyLower (pyStrip s)))

/-- The case-and-whitespace-insensitive canonical form of a place text: its
maximal non-whitespace runs, each lowercased.  Two texts "differ only in
letter casing and/or whitespace runs" exactly when their canonical forms
agree; this is the hypothesis of the C9 theorem. -/
def canonWords (s : Str) : List Str := (pySplitWS s).map pyLower

/-- Numeric value of an all-digit string (most significant digit first). -/
def natOfDigits (s : Str) : Nat :=
  s.foldl (fun n c => n * 10 + (c.toNat - 48)) 0

/-- A field of 1 to 2 ASCII digits, as the `strptime` directives `%H`,
`%M`, `%S`, `%d`, `%m` match it. -/
def digits12 (s : Str) : Option Nat :=
  if s ≠ [] ∧ s.length ≤ 2 ∧ s.all Char.isDigit then some (natOfDigits s)
  else none

/-- A field of exactly 4 ASCII digits, as the `strptime` directive `%Y`
matches it. -/
def digits4 (s : Str) : Option Nat :=
  if s.length = 4 ∧ s.all Char.isDigit then some (natOfDigits s) else none

/-- `datetime.strptime(s, "%H:%M")`: two 1-2 digit fields separated by a
colon, hour in 0..23, minute in 0..59, entire string consumed.  `none`
models the `ValueError` path. -/
def strptimeHM (s : Str) : Option (Nat × Nat) :=
  match List.splitOn ':' s with
  | [h, m] =>
    match digits12 h, digits12 m with
    | some hh, some mm => if hh ≤ 23 ∧ mm ≤ 59 then some (hh, mm) else none
    | _, _ => none
  | _ => none

/-- `datetime.strptime(s, "%H:%M:%S")`; seconds up to 61 as `strptime`
accepts (leap seconds). -/
def strptimeHMS (s : Str) : Option (Nat × Nat × Nat) :=
  match List.splitOn ':' s with
  | [h, m, sec] =>
    match digits12 h, digits12 m, digits12 sec with
    | some hh, some mm, some ss =>
      if hh ≤ 23 ∧ mm ≤ 59 ∧ ss ≤ 61 then some (hh, mm, ss) else none
    | _, _, _ => none
  | _ => none

/-- Decimal digits of a natural number, most significant first. -/
def natToStr (n : Nat) : Str := Nat.toDigits 10 n

/-- Zero-pad a number to at least `w` digits (as `strftime`/`isoformat` do). -/
def padNat (w n : Nat) : Str :=
  List.replicate (w - (natToStr n).length) '0' ++ natToStr n

/-- Python `str.zfill(w)`: left-pad with zeros to width `w`, keeping a
leading sign character in front of the padding. -/
def pyZfill (s : Str) (w : Nat) : Str :=
  if w ≤ s.length then s
  else
    match s with
    | [] => List.replicate w '0'
    | c :: rest =>
      if c = '+' ∨ c = '-' then
        c :: (List.replicate (w - s.length) '0' ++ rest)
      else List.replicate (w - s.length) '0' ++ (c :: rest)

/-- `parse_hora` from the source: strip, try `%H:%M` then `%H:%M:%S`
(formatting the result back as zero-padded `HH:MM`), then the fallback that
zero-fills the first two colon-separated parts, and finally the string
itself. -/
def parse_hora (h : Str) : Str :=
  let s := pyStrip h
  match strptimeHM s with
  | some (hh, mm) => padNat 2 hh ++ ':' :: padNat 2 mm
  | none =>
    match strptimeHMS s with
    | some (hh, mm, _) => padNat 2 hh ++ ':' :: padNat 2 mm
    | none =>
      let parts := List.splitOn ':' s
      if 2 ≤ parts.length then
        pyZfill (parts.getD 0 []) 2 ++ ':' :: pyZfill (parts.getD 1 []) 2
      else s

/-- A Python `datetime.date` value (year, month, day). -/
structure PyDate where
  y : Nat
  m : Nat
  d : Nat
deriving DecidableEq, Repr

/-- Gregorian leap year, as `datetime` implements it. -/
def isLeap (y : Nat) : Bool := y % 4 = 0 ∧ (y % 100 ≠ 0 ∨ y % 400 = 0)

/-- Days in a month, as `datetime` validates them. -/
def daysInMonth (y m : Nat) : Nat :=
  if m = 2 then (if isLeap y then 29 else 28)
  else if m = 4 ∨ m = 6 ∨ m = 9 ∨ m = 11 then 30
  else 31

/-- `parse_fecha` from the source:
`datetime.strptime(str(fecha_str).strip(), "%d/%m/%Y").date()`.
`%d` is 1-2 digits in 1..31, `%m` 1-2 digits in 1..12, `%Y` exactly 4
digits; constructing the `date` additionally validates the day against the
month length and requires year ≥ 1.  The `ValueError` that `strptime` or
the `date` constructor raises is the `.error` branch. -/
def parse_fecha (fecha : Str) : Except Str PyDate :=
  match List.splitOn '/' (pyStrip fecha) with
  | [d, m, y] =>
    match digits12 d, digits12 m, digits4 y with
    | some dd, some mm, some yy =>
      if 1 ≤ dd ∧ 1 ≤ mm ∧ mm ≤ 12 ∧ 1 ≤ yy ∧ dd ≤ daysInMonth yy mm then
        .ok ⟨yy, mm, dd⟩
      else .error (str "ValueError: time data does not match format")
    | _, _, _ => .error (str "ValueError: time data does not match format")
  | _ => .error (str "ValueError: time data does not match format")

/-- `date.isoformat()`: `YYYY-MM-DD`, zero-padded. -/
def isoformat (d : PyDate) : Str :=
  padNat 4 d.y ++ '-' :: padNat 2 d.m ++ '-' :: padNat 2 d.d

/-- Strict ordering of `date` values: lexicographic on (year, month, day),
which is how Python compares `date` objects. -/
def dateLt (a b : PyDate) : Bool :=
  a.y < b.y ∨ (a.y = b.y ∧ (a.m < b.m ∨ (a.m = b.m ∧ a.d < b.d)))

/-- `viaje_vigente` from the source.  `ahora` is the current time of day in
microseconds (Python `time` objects carry microsecond precision); `hoy` is
the date of today.  The source passes the ISO string it just produced with
`parse_fecha` and re-parses it with `strptime(fecha_iso, "%Y-%m-%d")`;
since that round-trip is the identity on the parsed value, the embedding
takes the date value directly.  The departure-time string is parsed with
`%H:%M`; a `ValueError` there, or an empty string, yields `True`. -/
def viaje_vigente (fecha : PyDate) (hora_salida : Str) (hoy : PyDate)
    (ahora : Nat) : Bool :=
  if dateLt hoy fecha then true
  else if dateLt fecha hoy then false
  else if hora_salida ≠ [] then
    match strptimeHM hora_salida with
    | some (hh, mm) => (hh * 3600 + mm * 60) * 1000000 ≥ ahora
    | none => true
  else true

/-- A resolved coordinate: the record `geocode` builds from the top result
of the provider (`{"lat": ..., "lon": ..., "display_name": ...}`), and likewise
an item of the response list of the provider.  Coordinates are carried verbatim,
never computed with, so their numeric type is modelled as `Int`. -/
structure GeoPoint where
  lat : Int
  lon : Int
  display_name : Option Str
deriving DecidableEq, Repr

/-- Behaviour of one Nominatim request for a given query string: either the
HTTP layer raises (`err`, covering timeouts, non-2xx via
`raise_for_status`, and malformed response bodies) or it returns a parsed
candidate list (`ok`, possibly empty). -/
inductive GeoResp where
  | err (e : Str)
  | ok (results : List GeoPoint)
deriving DecidableEq, Repr

/-- Is the response an HTTP/network error? -/
def GeoResp.isErr : GeoResp → Bool
  | .err _ => true
  | .ok _ => false

/-- The geocode cache: a mapping from normalized keys to either a resolved
`GeoPoint` (`some`) or the persisted "no result" sentinel `None` (`none`),
modelled as an association list with Python-dict update semantics. -/
abbrev Cache := List (Str × Option GeoPoint)

/-- `key in cache` / `cache[key]`. -/
def cacheLookup : Cache → Str → Option (Option GeoPoint)
  | [], _ => none
  | (k, v) :: rest, key => if k = key then some v else cacheLookup rest key

/-- `cache[key] = v`: update in place if present, else append. -/
def cacheInsert : Cache → Str → Option GeoPoint → Cache
  | [], key, v => [(key, v)]
  | (k, w) :: rest, key, v =>
    if k = key then (k, v) :: rest else (k, w) :: cacheInsert rest key v

/-- `geocode(place, cache)` from the source, with the provider as an oracle
`gprov` mapping the query text (the *unnormalized* `place`, as the source
sends it) to a response.  Returns the result, the updated cache, and the
number of external calls made (0 or 1).  A provider error is re-raised
(`.error`), exactly as `raise_for_status` / `r.json()` propagate in the
source; nothing is cached on that path. -/
def geocode (gprov : Str → GeoResp) (place : Str) (cache : Cache) :
    Except Str (Option GeoPoint × Cache × Nat) :=
  let key := normalize_place place
  if key = [] then .ok (none, cache, 0)
  else
    match cacheLookup cache key with
    | some v => .ok (v, cache, 0)
    | none =>
      match gprov place with
      | .err e => .error e
      | .ok [] => .ok (none, cacheInsert cache key none, 1)
      | .ok (item :: _) =>
        let result : GeoPoint := ⟨item.lat, item.lon, item.display_name⟩
        .ok (some result, cacheInsert cache key (some result), 1)

/-- A GeoJSON geometry as this pipeline sees it: either the straight-line
`LineString` the fallback synthesizes (coordinates are `[lon, lat]` pairs,
modelled as `(lon, lat)`), or a path returned verbatim by the routing
provider. -/
inductive Geometry where
  | lineString (coordinates : List (Int × Int))
  | providerPath (coordinates : List (Int × Int))
deriving DecidableEq, Repr

/-- Behaviour of one OSRM routing request for a given stop sequence: the
HTTP layer raises, or a parsed body with a (possibly empty) `routes` list
arrives, each route carrying its geometry. -/
inductive RouteResp where
  | err (e : Str)
  | ok (routes : List Geometry)
deriving DecidableEq, Repr

/-- `obtener_ruta_osrm_multi(stops_geo)` from the source, with the routing
provider as an oracle over the stop coordinates: re-raise provider errors;
return the geometry of the first route when the routes list is non-empty,
else `None`. -/
def obtener_ruta_osrm_multi (rprov : List GeoPoint → RouteResp)
    (stops_geo : List GeoPoint) : Except Str (Option Geometry) :=
  match rprov stops_geo with
  | .err e => .error e
  | .ok [] => .ok none
  | .ok (g :: _) => .ok (some g)

/-- One output Feature: geometry plus the properties dict of the source. -/
structure Feature where
  geometry : Geometry
  name : Str
  viaje_id : Str
  fecha : Str
  hora_salida : Str
  hora_llegada : Str
  origen : Str
  destino : Str
  paradas : Str
  num_paradas : Nat
deriving DecidableEq, Repr

/-- `build_feature_route` from the source: try the routing provider,
catching any exception (`ruta = None`); when there is no route, fall back
to a `LineString` of the stop coordinates as `[lon, lat]` pairs in stop
order.  `stops_txt[0]` / `stops_txt[-1]` presuppose a non-empty list in
Python; the embedding totalizes them with default `[]`, and the pipeline
only calls this with at least origin and destination present. -/
def build_feature_route (rprov : List GeoPoint → RouteResp) (viaje_id fecha
    hora_salida hora_llegada : Str) (stops_txt : List Str)
    (stops_geo : List GeoPoint) : Feature :=
  let ruta : Option Geometry :=
    match obtener_ruta_osrm_multi rprov stops_geo with
    | .error _ => none
    | .ok r => r
  let geometry :=
    match ruta with
    | some g => g
    | none => .lineString (stops_geo.map fun p => (p.lon, p.lat))
  let origen_txt := stops_txt.getD 0 []
  let destino_txt := (stops_txt.reverse).getD 0 []
  let paradas_txt := (stops_txt.drop 1).dropLast
  { geometry := geometry
    name := origen_txt ++ str " → " ++ destino_txt ++ str " (" ++
      hora_salida ++ str "-" ++ hora_llegada ++ str ")"
    viaje_id := viaje_id
    fecha := fecha
    hora_salida := hora_salida
    hora_llegada := hora_llegada
    origen := origen_txt
    destino := destino_txt
    paradas := if paradas_txt = [] then [] else pyJoin (str " | ") paradas_txt
    num_paradas := paradas_txt.length }

/-- A raw cell of the input row: `none` = column absent, `some none` = a
pandas NaN, `some (some s)` = the text of the cell. -/
abbrev Cell := Option (Option Str)

/-- `get_text(row, col)` from the source: absent column, NaN, blank after
strip, or the literal string "nan" (case-insensitive) all become `""`;
otherwise the stripped text. -/
def get_text (c : Cell) : Str :=
  match c with
  | none => []
  | some none => []
  | some (some v) =>
    let s := pyStrip v
    if s = [] then []
    else if pyLower s = str "nan" then [] else s

/-- One input row, with the fields `main` reads.  `fecha`, `salida` and
`llegada` are the `str()` of the raw cell values (what `parse_fecha` /
`parse_hora` receive). -/
structure Row where
  origen : Cell
  destino : Cell
  parada1 : Cell
  parada2 : Cell
  viajeId : Cell
  fecha : Str
  salida : Str
  llegada : Str
deriving Repr

/-- The defensive stop filter of `main`:
`s and s.strip() and s.strip().lower() != "nan"`. -/
def keepStop (s : Str) : Bool :=
  s ≠ [] ∧ pyStrip s ≠ [] ∧ pyLower (pyStrip s) ≠ str "nan"

/-- Stop-list construction of `main`: `[origen]`, then `p1` and `p2` when
truthy, then `destino`, then the defensive filter. -/
def buildStops (origen p1 p2 destino : Str) : List Str :=
  let stops := [origen] ++ (if p1 = [] then [] else [p1]) ++
    (if p2 = [] then [] else [p2]) ++ [destino]
  stops.filter keepStop

/-- The geocoding loop of `main` over `stops_txt`: geocode each stop in
order, threading the cache; `None` for any stop breaks the loop and
rejects the trip (`.ok (none, _)`); a provider exception propagates
(`.error`). -/
def geocodeStops (gprov : Str → GeoResp) : List Str → Cache →
    Except Str (Option (List GeoPoint) × Cache)
  | [], cache => .ok (some [], cache)
  | s :: rest, cache =>
    match geocode gprov s cache with
    | .error e => .error e
    | .ok (none, c2, _) => .ok (none, c2)
    | .ok (some g, c2, _) =>
      match geocodeStops gprov rest c2 with
      | .error e => .error e
      | .ok (none, c3) => .ok (none, c3)
      | .ok (some gs, c3) => .ok (some (g :: gs), c3)

/-- The per-row body of the loop in `main`, in source order: read texts, reject
on blank destino then blank origen; parse the date (a `ValueError` here
propagates and aborts the run); parse the times; reject on blank
`viaje_id`; reject on expired vigency; build the filtered stop list;
re-read and re-check `viaje_id` (the source does this twice); geocode the
stops (trip rejected if any stop is unresolvable, provider exceptions
propagate); finally build the feature.  `.ok (none, cache)` is a rejected
row (`descartados += 1` and `continue` in the source); `.ok (some f, _)`
appends a feature; `.error` is an uncaught exception aborting the run. -/
def processRow (gprov : Str → GeoResp) (rprov : List GeoPoint → RouteResp)
    (hoy : PyDate) (ahora : Nat) (cache : Cache) (row : Row) :
    Except Str (Option Feature × Cache) :=
  let destino := get_text row.destino
  let origen := get_text row.origen
  let p1 := get_text row.parada1
  let p2 := get_text row.parada2
  if destino = [] then .ok (none, cache)
  else if origen = [] then .ok (none, cache)
  else
    match parse_fecha row.fecha with
    | .error e => .error e
    | .ok fecha =>
      let fecha_iso := isoformat fecha
      let hora_salida := parse_hora row.salida
      let hora_llegada := parse_hora row.llegada
      let viaje_id := get_text row.viajeId
      if viaje_id = [] then .ok (none, cache)
      else if ¬ viaje_vigente fecha hora_salida hoy ahora then .ok (none, cache)
      else
        let stops_txt := buildStops origen p1 p2 destino
        if get_text row.viajeId = [] then .ok (none, cache)
        else
          match geocodeStops gprov stops_txt cache with
          | .error e => .error e
          | .ok (none, c2) => .ok (none, c2)
          | .ok (some gs, c2) =>
            .ok (some (build_feature_route rprov viaje_id fecha_iso
              hora_salida hora_llegada stops_txt gs), c2)

/-- The row loop of `main`: fold `processRow` over the rows, accumulating
features in processing order and the `descartados` counter; the first
uncaught exception aborts the whole run (`.error`). -/
def runPipeline (gprov : Str → GeoResp) (rprov : List GeoPoint → RouteResp)
    (hoy : PyDate) (ahora : Nat) : List Row → Cache → List Feature → Nat →
    Except Str (List Feature × Nat × Cache)
  | [], cache, feats, desc => .ok (feats, desc, cache)
  | r :: rs, cache, feats, desc =>
    match processRow gprov rprov hoy ahora cache r with
    | .error e => .error e
    | .ok (none, c2) => runPipeline gprov rprov hoy ahora rs c2 feats (desc + 1)
    | .ok (some f, c2) => runPipeline gprov rprov hoy ahora rs c2 (feats ++ [f]) desc

/-- Test fixtures used by the concrete counterexample and witness theorems
below.  `gprovErrHTTP` is a geocoding provider whose HTTP layer always
raises; `gprovTop` always returns one candidate; `gprovEmpty` returns an
empty candidate list; `rprovTimeout` is a routing provider that raises;
`rprovOne` returns one route. -/
def gprovErrHTTP : Str → GeoResp := fun _ => .err (str "HTTPError 500")
def gprovTop : Str → GeoResp := fun _ => .ok [⟨40, -3, some (str "Madrid, España")⟩]
def gprovEmpty : Str → GeoResp := fun _ => .ok []
def rprovTimeout : List GeoPoint → RouteResp := fun _ => .err (str "ReadTimeout")
def rprovOne : List GeoPoint → RouteResp := fun _ => .ok [.providerPath [(1, 2), (3, 4)]]
def rowMadrid : Row :=
  { origen := some (some (str "Madrid")), destino := some (some (str "Barcelona"))
    parada1 := some none, parada2 := none, viajeId := some (some (str "T1"))
    fecha := str "18/02/2030", salida := str "9:5", llegada := str "11:00" }
def rowMadridBadDate : Row := { rowMadrid with fecha := str "martes 18" }
def rowSinDestino : Row := { rowMadrid with destino := some none }
def hoy2025 : PyDate := ⟨2025, 1, 1⟩
def gpMadrid : GeoPoint := ⟨40, -3, some (str "Madrid, España")⟩

example : normalize_place (str "  HOLA   Mundo ") = str "hola mundo" := by decide
example : canonWords (str " Foo  BAR") = canonWords (str "foo bar ") := by decide
example : parse_hora (str "9:20") = str "09:20" := by decide
example : parse_hora (str "09:20:00") = str "09:20" := by decide
example : parse_hora (str "9:5") = str "09:05" := by decide
example : parse_hora (str "1:2:3:4") = str "01:02" := by decide
example : parse_hora (str "mediodía") = str "mediodía" := by decide
example : parse_fecha (str "18/02/2026") = .ok ⟨2026, 2, 18⟩ := rfl
example : (parse_fecha (str "31/02/2026")).isOk = false := by decide
example : (parse_fecha (str "nan")).isOk = false := by decide

theorem pyIsSpace_pyToLower (c : Char) : pyIsSpace (pyToLower c) = pyIsSpace c := by
  unfold pyToLower
  split <;> rfl

theorem splitWSAux_lower (s : Str) : ∀ acc : Str,
    splitWSAux (pyLower s) (pyLower acc) = (splitWSAux s acc).map pyLower := by
  induction s with
  | nil =>
    intro acc
    by_cases h : acc = []
    · subst h; rfl
    · have h2 : pyLower acc ≠ [] := by simpa [pyLower] using h
      simp [splitWSAux, h, h2, pyLower]
  | cons c cs ih =>
    intro acc
    show splitWSAux (pyToLower c :: pyLower cs) (pyLower acc) = _
    rw [splitWSAux, splitWSAux, pyIsSpace_pyToLower]
    by_cases hc : pyIsSpace c
    · simp only [hc, if_pos]
      by_cases h : acc = []
      · have h2 : pyLower acc = [] := by simp [h, pyLower]
        simpa [h, h2] using ih []
      · have h2 : pyLower acc ≠ [] := by simpa [pyLower] using h
        simp only [h, h2, if_neg, not_false_iff]
        rw [show (pyLower acc).reverse = pyLower acc.reverse by simp [pyLower]]
        simpa using ih []
    · simp only [hc, if_neg, not_false_iff]
      exact ih (c :: acc)

theorem pySplitWS_lower (s : Str) :
    pySplitWS (pyLower s) = (pySplitWS s).map pyLower := by
  have h := splitWSAux_lower s []
  simpa [pySplitWS, pyLower] using h

theorem splitWSAux_all_space (t : Str) (h : ∀ c ∈ t, pyIsSpace c = true) :
    ∀ acc : Str, splitWSAux t acc = if acc = [] then [] else [acc.reverse] := by
  induction t with
  | nil => intro acc; rfl
  | cons c cs ih =>
    intro acc
    have hc : pyIsSpace c = true := h c (List.mem_cons_self c cs)
    have ih2 := ih (fun d hd => h d (List.mem_cons_of_mem c hd)) []
    rw [splitWSAux, hc, if_pos rfl]
    by_cases ha : acc = [] <;> simp [ha, ih2]

theorem splitWSAux_append_space (xs t : Str) (h : ∀ c ∈ t, pyIsSpace c = true) :
    ∀ acc : Str, splitWSAux (xs ++ t) acc = splitWSAux xs acc := by
  induction xs with
  | nil =>
    intro acc
    rw [List.nil_append, splitWSAux_all_space t h acc]
    rfl
  | cons c cs ih =>
    intro acc
    rw [List.cons_append, splitWSAux, splitWSAux]
    by_cases hc : pyIsSpace c <;> by_cases ha : acc = [] <;>
      simp [hc, ha, ih]

theorem pySplitWS_dropWhile (s : Str) :
    pySplitWS (s.dropWhile pyIsSpace) = pySplitWS s := by
  induction s with
  | nil => rfl
  | cons c cs ih =>
    by_cases hc : pyIsSpace c
    · rw [List.dropWhile_cons_of_pos hc]
      rw [ih]
      show _ = splitWSAux (c :: cs) []
      rw [splitWSAux, hc]
      simp [pySplitWS]
    · rw [List.dropWhile_cons_of_neg hc]

theorem pySplitWS_strip (s : Str) : pySplitWS (pyStrip s) = pySplitWS s := by
  set p := pyIsSpace
  set u := s.dropWhile p with hu
  have hps : pyStrip s = List.rdropWhile p u := rfl
  have hdecomp : u = List.rdropWhile p u ++ (u.reverse.takeWhile p).reverse := by
    have := List.takeWhile_append_dropWhile (p := p) (l := u.reverse)
    calc u = u.reverse.reverse := by rw [List.reverse_reverse]
    _ = (u.reverse.takeWhile p ++ u.reverse.dropWhile p).reverse := by rw [this]
    _ = (u.reverse.dropWhile p).reverse ++ (u.reverse.takeWhile p).reverse := by
          rw [List.reverse_append]
    _ = List.rdropWhile p u ++ (u.reverse.takeWhile p).reverse := rfl
  have hspace : ∀ c ∈ (u.reverse.takeWhile p).reverse, p c = true := by
    intro c hc
    exact List.mem_takeWhile_imp (List.mem_reverse.mp hc)
  have h1 : pySplitWS u = pySplitWS (List.rdropWhile p u) := by
    conv_lhs => rw [hdecomp]
    exact splitWSAux_append_space _ _ hspace []
  rw [hps, ← h1, hu, pySplitWS_dropWhile]

theorem pyStrip_idem (s : Str) : pyStrip (pyStrip s) = pyStrip s := by
  have hps : ∀ x : Str, pyStrip x = List.rdropWhile pyIsSpace (x.dropWhile pyIsSpace) :=
    fun x => rfl
  set p := pyIsSpace with hp
  set u := s.dropWhile p with hu
  have huu : u.dropWhile p = u := by rw [hu, List.dropWhile_idempotent]
  have hself : ∀ h0 : 0 < u.length, ¬ p (u.get ⟨0, h0⟩) :=
    List.dropWhile_eq_self_iff.mp huu
  have hdw : (List.rdropWhile p u).dropWhile p = List.rdropWhile p u := by
    rw [List.dropWhile_eq_self_iff]
    intro hl
    have hpre : List.rdropWhile p u <+: u := List.rdropWhile_prefix p u
    have hlu : 0 < u.length := lt_of_lt_of_le hl hpre.length_le
    have hget : (List.rdropWhile p u)[0] = u[0] := hpre.getElem hl
    have hx := hself hlu
    simpa [List.get_eq_getElem, hget] using hx
  rw [hps s, hps (List.rdropWhile p u), hdw, List.rdropWhile_idempotent]

theorem normalize_place_eq_join_canon (s : Str) :
    normalize_place s = pyJoin [' '] (canonWords s) := by
  unfold normalize_place canonWords
  rw [pySplitWS_lower, pySplitWS_strip]

theorem splitWSAux_cons_ne (s : Str) : ∀ acc : Str, acc ≠ [] →
    ∃ w ws, splitWSAux s acc = w :: ws ∧ w ≠ [] := by
  induction s with
  | nil =>
    intro acc ha
    refine ⟨acc.reverse, [], ?_, by simpa using ha⟩
    simp [splitWSAux, ha]
  | cons c cs ih =>
    intro acc ha
    rw [splitWSAux]
    by_cases hc : pyIsSpace c
    · refine ⟨acc.reverse, splitWSAux cs [], ?_, by simpa using ha⟩
      simp [hc, ha]
    · simpa [hc] using ih (c :: acc) (by simp)

theorem pyJoin_cons_ne_nil (sep w : Str) (ws : List Str) (hw : w ≠ []) :
    pyJoin sep (w :: ws) ≠ [] := by
  cases ws with
  | nil => simpa [pyJoin] using hw
  | cons w2 ws2 => simp [pyJoin, hw]

theorem normalize_place_ne_nil (s : Str) (hne : s ≠ []) (hst : pyStrip s = s) :
    normalize_place s ≠ [] := by
  obtain ⟨c, cs, rfl⟩ := List.exists_cons_of_ne_nil hne
  have hc : pyIsSpace c = false := by
    by_contra hc
    have hc2 : pyIsSpace c = true := by revert hc; cases pyIsSpace c <;> simp
    have hlen : (pyStrip (c :: cs)).length ≤ cs.length := by
      have h1 : ((c :: cs).dropWhile pyIsSpace).length ≤ cs.length := by
        rw [List.dropWhile_cons_of_pos hc2]
        exact (List.dropWhile_sublist pyIsSpace).length_le
      have h2 : pyStrip (c :: cs) <+: (c :: cs).dropWhile pyIsSpace :=
        List.rdropWhile_prefix _ _
      exact le_trans h2.length_le h1
    rw [hst] at hlen
    simp at hlen
  have hsplit : ∃ w ws, pySplitWS (c :: cs) = w :: ws ∧ w ≠ [] := by
    unfold pySplitWS
    rw [splitWSAux]
    simp only [hc]
    exact splitWSAux_cons_ne cs [c] (by simp)
  obtain ⟨w, ws, hsw, hw⟩ := hsplit
  unfold normalize_place
  rw [hst, pySplitWS_lower, hsw]
  exact pyJoin_cons_ne_nil _ _ _ (by simpa [pyLower] using hw)

theorem get_text_props (c : Cell) (h : get_text c ≠ []) :
    pyStrip (get_text c) = get_text c ∧ pyLower (get_text c) ≠ str "nan" := by
  match c with
  | none => exact absurd rfl h
  | some none => exact absurd rfl h
  | some (some v) =>
    unfold get_text at *
    by_cases h1 : pyStrip v = []
    · simp [h1] at h
    · by_cases h2 : pyLower (pyStrip v) = str "nan"
      · simp [h1, h2] at h
      · simp only [h1, h2, if_neg, if_false, not_false_iff]
        exact ⟨pyStrip_idem v, h2⟩

theorem keepStop_get_text (c : Cell) (h : get_text c ≠ []) :
    keepStop (get_text c) = true := by
  obtain ⟨h1, h2⟩ := get_text_props c h
  simp [keepStop, h1, h, h2]

theorem cacheLookup_cacheInsert (cache : Cache) (k : Str) (v : Option GeoPoint) :
    cacheLookup (cacheInsert cache k v) k = some v := by
  induction cache with
  | nil => simp [cacheInsert, cacheLookup]
  | cons kv rest ih =>
    obtain ⟨k2, v2⟩ := kv
    by_cases hk : k2 = k <;> simp [cacheInsert, cacheLookup, hk, ih]

theorem geocode_hit (gprov : Str → GeoResp) (place : Str) (cache : Cache)
    (v : Option GeoPoint) (hk : normalize_place place ≠ [])
    (hv : cacheLookup cache (normalize_place place) = some v) :
    geocode gprov place cache = .ok (v, cache, 0) := by
  unfold geocode
  simp [hk, hv]

theorem geocode_err (gprov : Str → GeoResp) (place : Str) (cache : Cache)
    (e : Str) (hk : normalize_place place ≠ [])
    (hv : cacheLookup cache (normalize_place place) = none)
    (he : gprov place = .err e) :
    geocode gprov place cache = .error e := by
  unfold geocode
  simp [hk, hv, he]

theorem geocode_ok_of_prov (gprov : Str → GeoResp) (place : Str) (cache : Cache)
    (hp : (gprov place).isErr = false) :
    ∃ v c2 n, geocode gprov place cache = .ok (v, c2, n) := by
  unfold geocode
  by_cases hk : normalize_place place = []
  · exact ⟨none, cache, 0, by simp [hk]⟩
  · match hv : cacheLookup cache (normalize_place place) with
    | some v => exact ⟨v, cache, 0, by simp [hk, hv]⟩
    | none =>
      match hg : gprov place with
      | .err e => rw [hg] at hp; simp [GeoResp.isErr] at hp
      | .ok [] =>
        exact ⟨none, cacheInsert cache (normalize_place place) none, 1,
          by simp [hk, hv, hg]⟩
      | .ok (item :: rest) =>
        exact ⟨some ⟨item.lat, item.lon, item.display_name⟩,
          cacheInsert cache (normalize_place place)
            (some ⟨item.lat, item.lon, item.display_name⟩), 1,
          by simp [hk, hv, hg]⟩

theorem geocodeStops_ok_of_prov (gprov : Str → GeoResp)
    (hp : ∀ q, (gprov q).isErr = false) (stops : List Str) : ∀ cache : Cache,
    ∃ out, geocodeStops gprov stops cache = .ok out := by
  induction stops with
  | nil => intro cache; exact ⟨(some [], cache), rfl⟩
  | cons s rest ih =>
    intro cache
    obtain ⟨v, c2, n, hg⟩ := geocode_ok_of_prov gprov s cache (hp s)
    match v with
    | none => exact ⟨(none, c2), by rw [geocodeStops, hg]⟩
    | some g =>
      obtain ⟨out2, hrec⟩ := ih c2
      match out2 with
      | (none, c3) => exact ⟨(none, c3), by simp [geocodeStops, hg, hrec]⟩
      | (some gs, c3) =>
        exact ⟨(some (g :: gs), c3), by simp [geocodeStops, hg, hrec]⟩

theorem processRow_ok_of_prov (gprov : Str → GeoResp)
    (rprov : List GeoPoint → RouteResp) (hoy : PyDate) (ahora : Nat)
    (cache : Cache) (row : Row) (hp : ∀ q, (gprov q).isErr = false)
    (hrow : get_text row.destino = [] ∨ get_text row.origen = [] ∨
      ∃ d, parse_fecha row.fecha = .ok d) :
    ∃ out, processRow gprov rprov hoy ahora cache row = .ok out := by
  unfold processRow
  by_cases hd : get_text row.destino = []
  · exact ⟨(none, cache), by simp [hd]⟩
  · by_cases ho : get_text row.origen = []
    · exact ⟨(none, cache), by simp [hd, ho]⟩
    · have hfec : ∃ d, parse_fecha row.fecha = .ok d := by
        rcases hrow with h | h | h
        · exact absurd h hd
        · exact absurd h ho
        · exact h
      obtain ⟨d, hfec⟩ := hfec
      simp only [hd, ho, hfec, if_neg, if_false]
      by_cases hv : get_text row.viajeId = []
      · exact ⟨(none, cache), by simp [hv]⟩
      · by_cases hvig : viaje_vigente d (parse_hora row.salida) hoy ahora
        · obtain ⟨out, hgs⟩ := geocodeStops_ok_of_prov gprov hp
            (buildStops (get_text row.origen) (get_text row.parada1)
              (get_text row.parada2) (get_text row.destino)) cache
          match out with
          | (none, c2) => exact ⟨(none, c2), by simp [hv, hvig, hgs]⟩
          | (some gs, c2) =>
            exact ⟨(some (build_feature_route rprov (get_text row.viajeId)
              (isoformat d) (parse_hora row.salida) (parse_hora row.llegada)
              (buildStops (get_text row.origen) (get_text row.parada1)
                (get_text row.parada2) (get_text row.destino)) gs), c2),
              by simp [hv, hvig, hgs]⟩
        · exact ⟨(none, cache), by simp [hv, hvig]⟩

theorem keepStop_ne_nil (s : Str) (h : keepStop s = true) : s ≠ [] := by
  intro hs
  rw [hs] at h
  simp [keepStop] at h

theorem get_text_nil_or_keep (c : Cell) :
    get_text c = [] ∨ keepStop (get_text c) = true := by
  by_cases h : get_text c = []
  · exact Or.inl h
  · exact Or.inr (keepStop_get_text c h)

theorem buildStops_eq (origen p1 p2 destino : Str)
    (hO : keepStop origen = true) (hD : keepStop destino = true)
    (hp1 : p1 = [] ∨ keepStop p1 = true) (hp2 : p2 = [] ∨ keepStop p2 = true) :
    buildStops origen p1 p2 destino =
      [origen] ++ (if p1 = [] then [] else [p1]) ++
      (if p2 = [] then [] else [p2]) ++ [destino] := by
  unfold buildStops
  rcases hp1 with h1 | h1
  · rcases hp2 with h2 | h2
    · simp [h1, h2, hO, hD]
    · simp [h1, keepStop_ne_nil p2 h2, h2, hO, hD]
  · rcases hp2 with h2 | h2
    · simp [keepStop_ne_nil p1 h1, h1, h2, hO, hD]
    · simp [keepStop_ne_nil p1 h1, keepStop_ne_nil p2 h2, h1, h2, hO, hD]

theorem processRow_geocode_err (gprov : Str → GeoResp)
    (rprov : List GeoPoint → RouteResp) (hoy : PyDate) (ahora : Nat)
    (cache : Cache) (row : Row) (dt : PyDate) (e : Str)
    (hD : get_text row.destino ≠ [])
    (hO : get_text row.origen ≠ [])
    (hfec : parse_fecha row.fecha = .ok dt)
    (hV : get_text row.viajeId ≠ [])
    (hvig : viaje_vigente dt (parse_hora row.salida) hoy ahora = true)
    (hmiss : cacheLookup cache (normalize_place (get_text row.origen)) = none)
    (herr : gprov (get_text row.origen) = .err e) :
    processRow gprov rprov hoy ahora cache row = .error e := by
  have hkO := keepStop_get_text row.origen hO
  have hkD := keepStop_get_text row.destino hD
  obtain ⟨hstO, _⟩ := get_text_props row.origen hO
  have hkey : normalize_place (get_text row.origen) ≠ [] :=
    normalize_place_ne_nil _ hO hstO
  have hstops : buildStops (get_text row.origen) (get_text row.parada1)
      (get_text row.parada2) (get_text row.destino) =
      get_text row.origen :: ((if get_text row.parada1 = [] then [] else [get_text row.parada1]) ++
        (if get_text row.parada2 = [] then [] else [get_text row.parada2]) ++
        [get_text row.destino]) := by
    rw [buildStops_eq _ _ _ _ hkO hkD (get_text_nil_or_keep row.parada1)
      (get_text_nil_or_keep row.parada2)]
    simp
  have hgeo : geocode gprov (get_text row.origen) cache = .error e :=
    geocode_err gprov _ cache e hkey hmiss herr
  have hgs : geocodeStops gprov (buildStops (get_text row.origen)
      (get_text row.parada1) (get_text row.parada2) (get_text row.destino))
      cache = .error e := by
    rw [hstops, geocodeStops, hgeo]
  unfold processRow
  simp [hD, hO, hfec, hV, hvig, hgs]

theorem runPipeline_cons_err (gprov : Str → GeoResp)
    (rprov : List GeoPoint → RouteResp) (hoy : PyDate) (ahora : Nat)
    (row : Row) (rs : List Row) (cache : Cache) (feats : List Feature)
    (desc : Nat) (e : Str)
    (h : processRow gprov rprov hoy ahora cache row = .error e) :
    runPipeline gprov rprov hoy ahora (row :: rs) cache feats desc = .error e := by
  rw [runPipeline, h]

/-- Claim C4 (amended): for a place text whose NON-EMPTY normalized key is
present in the cache (resolved record or unresolvable marker), `geocode`
returns the cached value immediately, makes zero external calls, and
leaves the cache unchanged. -/
theorem cache_hit_returns_cached_no_call (gprov : Str → GeoResp) (place : Str)
    (cache : Cache) (v : Option GeoPoint)
    (hk : normalize_place place ≠ [])
    (hv : cacheLookup cache (normalize_place place) = some v) :
    geocode gprov place cache = .ok (v, cache, 0) :=
  geocode_hit gprov place cache v hk hv

theorem cache_hit_returns_cached_no_call_witness :
    geocode gprovTop (str " MADRID ") [(str "madrid", some gpMadrid)] =
      .ok (some gpMadrid, [(str "madrid", some gpMadrid)], 0) :=
  cache_hit_returns_cached_no_call gprovTop (str " MADRID ")
    [(str "madrid", some gpMadrid)] (some gpMadrid) (by decide) rfl

/-- Claim C4 counterexample: when the cache maps the EMPTY key to a
resolved record, a place text normalizing to the empty key has its key
present in the cache, yet `geocode` returns `none` rather than the cached
value, because the empty-key check precedes the cache lookup. -/
theorem empty_key_cache_hit_cx :
    cacheLookup [([], some gpMadrid)] (normalize_place (str "")) =
      some (some gpMadrid) ∧
    geocode gprovTop (str "") [([], some gpMadrid)] =
      .ok (none, [([], some gpMadrid)], 0) ∧
    (none : Option GeoPoint) ≠ some gpMadrid := by
  exact ⟨rfl, rfl, by simp⟩

/-- Claim C8: for a place text that is empty or normalizes to the empty
key, `geocode` returns `none` directly, with zero external calls and the
cache left unchanged. -/
theorem empty_key_returns_none_uncached (gprov : Str → GeoResp) (place : Str)
    (cache : Cache) (h : normalize_place place = []) :
    geocode gprov place cache = .ok (none, cache, 0) := by
  unfold geocode
  simp [h]

theorem empty_key_returns_none_uncached_witness :
    geocode gprovTop (str "   ") [(str "madrid", some gpMadrid)] =
      .ok (none, [(str "madrid", some gpMadrid)], 0) :=
  empty_key_returns_none_uncached gprovTop (str "   ")
    [(str "madrid", some gpMadrid)] (by decide)

/-- Claim C6: on a cache miss with a non-empty normalized key, a non-empty
provider response stores the coordinates of the top result under the key
and returns them, while an empty response stores the unresolvable marker
`none` and returns `none`; in both cases a later `geocode` of any text
with the same normalized key (under any provider) returns the cached value
with zero further external calls. -/
theorem cache_miss_populates_and_suppresses (gprov gprov2 : Str → GeoResp)
    (place place2 : Str) (cache : Cache)
    (hk : normalize_place place ≠ [])
    (hmiss : cacheLookup cache (normalize_place place) = none)
    (hsame : normalize_place place2 = normalize_place place) :
    (∀ item rest, gprov place = .ok (item :: rest) →
      geocode gprov place cache =
        .ok (some ⟨item.lat, item.lon, item.display_name⟩,
          cacheInsert cache (normalize_place place)
            (some ⟨item.lat, item.lon, item.display_name⟩), 1) ∧
      geocode gprov2 place2 (cacheInsert cache (normalize_place place)
          (some ⟨item.lat, item.lon, item.display_name⟩)) =
        .ok (some ⟨item.lat, item.lon, item.display_name⟩,
          cacheInsert cache (normalize_place place)
            (some ⟨item.lat, item.lon, item.display_name⟩), 0)) ∧
    (gprov place = .ok [] →
      geocode gprov place cache =
        .ok (none, cacheInsert cache (normalize_place place) none, 1) ∧
      geocode gprov2 place2 (cacheInsert cache (normalize_place place) none) =
        .ok (none, cacheInsert cache (normalize_place place) none, 0)) := by
  constructor
  · intro item rest hresp
    constructor
    · unfold geocode
      simp [hk, hmiss, hresp]
    · refine geocode_hit gprov2 place2 _ _ (by rw [hsame]; exact hk) ?_
      rw [hsame]
      exact cacheLookup_cacheInsert cache _ _
  · intro hresp
    constructor
    · unfold geocode
      simp [hk, hmiss, hresp]
    · refine geocode_hit gprov2 place2 _ _ (by rw [hsame]; exact hk) ?_
      rw [hsame]
      exact cacheLookup_cacheInsert cache _ _

theorem cache_miss_populates_and_suppresses_witness :
    geocode gprovTop (str "Madrid") [] =
      .ok (some gpMadrid, cacheInsert [] (normalize_place (str "Madrid")) (some gpMadrid), 1) ∧
    geocode gprovEmpty (str " MADRID") (cacheInsert [] (normalize_place (str "Madrid")) (some gpMadrid)) =
      .ok (some gpMadrid, cacheInsert [] (normalize_place (str "Madrid")) (some gpMadrid), 0) :=
  (cache_miss_populates_and_suppresses gprovTop gprovEmpty (str "Madrid")
    (str " MADRID") [] (by decide) rfl (by decide)).1 gpMadrid [] rfl

/-- Claim C3: when the routing request raises (network or parse error) or
returns zero candidate routes, the feature built by `build_feature_route`
has a `LineString` geometry whose coordinate list is exactly the geocoded
stop coordinates as (lon, lat) pairs in stop order; the construction is a
total function, so the fallback never raises. -/
theorem routing_failure_fallback_linestring (rprov : List GeoPoint → RouteResp)
    (vid fecha hs hl : Str) (stops_txt : List Str) (stops_geo : List GeoPoint)
    (e : Str) (h : rprov stops_geo = .err e ∨ rprov stops_geo = .ok []) :
    (build_feature_route rprov vid fecha hs hl stops_txt stops_geo).geometry =
      .lineString (stops_geo.map fun p => (p.lon, p.lat)) := by
  unfold build_feature_route obtener_ruta_osrm_multi
  rcases h with h | h <;> simp [h]

theorem routing_failure_fallback_linestring_witness :
    (build_feature_route rprovTimeout (str "T1") (str "2030-02-18")
      (str "09:05") (str "11:00") [str "Madrid", str "Barcelona"]
      [⟨40, -3, none⟩, ⟨41, 2, none⟩]).geometry =
      .lineString (([⟨40, -3, none⟩, ⟨41, 2, none⟩] : List GeoPoint).map
        fun p => (p.lon, p.lat)) :=
  routing_failure_fallback_linestring rprovTimeout (str "T1") (str "2030-02-18")
    (str "09:05") (str "11:00") [str "Madrid", str "Barcelona"]
    [⟨40, -3, none⟩, ⟨41, 2, none⟩] (str "ReadTimeout") (Or.inl rfl)

/-- Claim C9: two place texts that differ only in letter casing and in
whitespace runs (formalized: their lowercased word sequences `canonWords`
agree) receive identical cache keys from `normalize_place`. -/
theorem normalize_place_case_whitespace_invariant (s t : Str)
    (h : canonWords s = canonWords t) :
    normalize_place s = normalize_place t := by
  rw [normalize_place_eq_join_canon, normalize_place_eq_join_canon, h]

theorem normalize_place_case_whitespace_invariant_witness :
    normalize_place (str "  Foo   BAR ") = normalize_place (str "foo bar") :=
  normalize_place_case_whitespace_invariant (str "  Foo   BAR ") (str "foo bar")
    (by decide)

theorem dateLt_iff (a b : PyDate) : dateLt a b = true ↔
    (a.y < b.y ∨ (a.y = b.y ∧ (a.m < b.m ∨ (a.m = b.m ∧ a.d < b.d)))) := by
  simp [dateLt]

theorem dateLt_asymm (a b : PyDate) (h : dateLt a b = true) : dateLt b a = false := by
  rw [dateLt_iff] at h
  rw [Bool.eq_false_iff]
  intro hb
  rw [dateLt_iff] at hb
  omega

theorem dateLt_irrefl (a : PyDate) : dateLt a a = false := by
  rw [Bool.eq_false_iff]
  intro h
  rw [dateLt_iff] at h
  omega

/-- Claim C5: the vigency check accepts every trip dated strictly after
today, rejects every trip dated strictly before today regardless of time
fields, and, for a trip dated today whose departure string parses as HH:MM,
rejects it exactly when the departure time is strictly before the current
time (times carry microsecond precision). -/
theorem viaje_vigente_date_time_rules (fecha hoy : PyDate) (hora : Str)
    (ahora : Nat) :
    (dateLt hoy fecha = true → viaje_vigente fecha hora hoy ahora = true) ∧
    (dateLt fecha hoy = true → viaje_vigente fecha hora hoy ahora = false) ∧
    (∀ hh mm, fecha = hoy → strptimeHM hora = some (hh, mm) →
      (viaje_vigente fecha hora hoy ahora = false ↔
        (hh * 3600 + mm * 60) * 1000000 < ahora)) := by
  refine ⟨?_, ?_, ?_⟩
  · intro h
    unfold viaje_vigente
    simp [h]
  · intro h
    unfold viaje_vigente
    simp [dateLt_asymm fecha hoy h, h]
  · intro hh mm hfh hparse
    subst hfh
    have hne2 : hora ≠ [] := by
      intro h0
      rw [h0] at hparse
      simp [strptimeHM] at hparse
    unfold viaje_vigente
    simp [dateLt_irrefl, hne2, hparse]

theorem viaje_vigente_date_time_rules_witness :
    viaje_vigente ⟨2030, 2, 18⟩ (str "09:05") hoy2025 0 = true :=
  (viaje_vigente_date_time_rules ⟨2030, 2, 18⟩ hoy2025 (str "09:05") 0).1
    (by decide)

/-- Claim C7 counterexample: "1:2:3:4" parses under none of the accepted
time formats and is already trimmed, yet `parse_hora` returns "01:02"
rather than the input unchanged. -/
theorem parse_hora_unparseable_changed_cx :
    strptimeHM (pyStrip (str "1:2:3:4")) = none ∧
    strptimeHMS (pyStrip (str "1:2:3:4")) = none ∧
    pyStrip (str "1:2:3:4") = str "1:2:3:4" ∧
    parse_hora (str "1:2:3:4") = str "01:02" ∧
    str "01:02" ≠ str "1:2:3:4" :=
  ⟨rfl, rfl, rfl, rfl, by decide⟩

/-- Claim C7 (amended): a time string unparseable as H:MM, HH:MM or
HH:MM:SS is returned unchanged after trimming ONLY when it has fewer than
two colon-separated parts; with two or more parts the fallback instead
returns the first two parts, each zero-filled to width 2, joined by a
colon. -/
theorem parse_hora_unparseable_fallback (h : Str)
    (hp1 : strptimeHM (pyStrip h) = none)
    (hp2 : strptimeHMS (pyStrip h) = none) :
    ((List.splitOn ':' (pyStrip h)).length < 2 → parse_hora h = pyStrip h) ∧
    (2 ≤ (List.splitOn ':' (pyStrip h)).length →
      parse_hora h =
        pyZfill ((List.splitOn ':' (pyStrip h)).getD 0 []) 2 ++
          ':' :: pyZfill ((List.splitOn ':' (pyStrip h)).getD 1 []) 2) := by
  unfold parse_hora
  simp only [hp1, hp2]
  constructor
  · intro hlen
    rw [if_neg (by omega)]
  · intro hlen
    rw [if_pos hlen]

theorem parse_hora_unparseable_fallback_witness :
    parse_hora (str "1:2:3:4") =
      pyZfill ((List.splitOn ':' (pyStrip (str "1:2:3:4"))).getD 0 []) 2 ++
        ':' :: pyZfill ((List.splitOn ':' (pyStrip (str "1:2:3:4"))).getD 1 []) 2 :=
  (parse_hora_unparseable_fallback (str "1:2:3:4") rfl rfl).2 (by decide)

/-- Claim C1 (amended): a network or HTTP error raised by the geocoding
provider while resolving a stop of an accepted trip is NOT caught by the
row loop: the exception propagates out of `processRow` and aborts the
whole run with that error, regardless of how many rows remain, instead of
rejecting only that trip and continuing. -/
theorem geocode_http_error_aborts_run (gprov : Str → GeoResp)
    (rprov : List GeoPoint → RouteResp) (hoy : PyDate) (ahora : Nat)
    (row : Row) (rs : List Row) (cache : Cache) (feats : List Feature)
    (desc : Nat) (dt : PyDate) (e : Str)
    (hD : get_text row.destino ≠ [])
    (hO : get_text row.origen ≠ [])
    (hfec : parse_fecha row.fecha = .ok dt)
    (hV : get_text row.viajeId ≠ [])
    (hvig : viaje_vigente dt (parse_hora row.salida) hoy ahora = true)
    (hmiss : cacheLookup cache (normalize_place (get_text row.origen)) = none)
    (herr : gprov (get_text row.origen) = .err e) :
    runPipeline gprov rprov hoy ahora (row :: rs) cache feats desc = .error e :=
  runPipeline_cons_err gprov rprov hoy ahora row rs cache feats desc e
    (processRow_geocode_err gprov rprov hoy ahora cache row dt e
      hD hO hfec hV hvig hmiss herr)

theorem geocode_http_error_aborts_run_witness :
    runPipeline gprovErrHTTP rprovOne hoy2025 0 [rowMadrid] [] [] 0 =
      .error (str "HTTPError 500") :=
  geocode_http_error_aborts_run gprovErrHTTP rprovOne hoy2025 0 rowMadrid []
    [] [] 0 ⟨2030, 2, 18⟩ (str "HTTPError 500") (by decide) (by decide) rfl
    (by decide) (by decide) rfl rfl

/-- Claim C1 counterexample: with a provider whose HTTP layer raises, a
two-row feed whose first trip passes validation makes the entire run abort
with the provider error and never yields a result, contradicting the claim
that only the offending trip is rejected and processing continues with the
next row. -/
theorem run_aborts_on_geocode_http_error_cx :
    runPipeline gprovErrHTTP rprovOne hoy2025 0 [rowMadrid, rowMadrid] [] [] 0 =
      .error (str "HTTPError 500") ∧
    ∀ res, runPipeline gprovErrHTTP rprovOne hoy2025 0 [rowMadrid, rowMadrid]
      [] [] 0 ≠ .ok res := by
  have h0 : runPipeline gprovErrHTTP rprovOne hoy2025 0 [rowMadrid, rowMadrid]
      [] [] 0 = .error (str "HTTPError 500") := rfl
  exact ⟨h0, fun res h => by rw [h0] at h; exact Except.noConfusion h⟩

/-- Claim C2 (amended): the per-row rejections the code handles (blank
destination, blank origin, blank trip id, expired trip, unresolvable stop)
never abort the run: when the geocoding provider raises no network errors
and every row either fails validation before date parsing or carries a
well-formed date, the pipeline processes every row to completion, however
many rows are rejected.  A malformed trip date, by contrast, aborts the
run (see the counterexample). -/
theorem row_rejections_never_abort_run (gprov : Str → GeoResp)
    (rprov : List GeoPoint → RouteResp) (hoy : PyDate) (ahora : Nat)
    (rows : List Row) (hp : ∀ q, (gprov q).isErr = false)
    (hrows : ∀ r ∈ rows, get_text r.destino = [] ∨ get_text r.origen = [] ∨
      ∃ d, parse_fecha r.fecha = .ok d) :
    ∀ cache feats desc, ∃ res,
      runPipeline gprov rprov hoy ahora rows cache feats desc = .ok res := by
  induction rows with
  | nil =>
    intro cache feats desc
    exact ⟨(feats, desc, cache), rfl⟩
  | cons r rs ih =>
    intro cache feats desc
    obtain ⟨out, hout⟩ := processRow_ok_of_prov gprov rprov hoy ahora cache r hp
      (hrows r (List.mem_cons_self r rs))
    have hrs := fun x hx => hrows x (List.mem_cons_of_mem r hx)
    match out with
    | (none, c2) =>
      obtain ⟨res, hres⟩ := ih hrs c2 feats (desc + 1)
      exact ⟨res, by rw [runPipeline, hout]; exact hres⟩
    | (some f, c2) =>
      obtain ⟨res, hres⟩ := ih hrs c2 (feats ++ [f]) desc
      exact ⟨res, by rw [runPipeline, hout]; exact hres⟩

theorem row_rejections_never_abort_run_witness :
    ∃ res, runPipeline gprovTop rprovOne hoy2025 0 [rowSinDestino, rowMadrid]
      [] [] 0 = .ok res :=
  row_rejections_never_abort_run gprovTop rprovOne hoy2025 0
    [rowSinDestino, rowMadrid] (fun _ => rfl)
    (by
      intro r hr
      simp only [List.mem_cons, List.not_mem_nil, or_false] at hr
      rcases hr with rfl | rfl
      · left; rfl
      · right; right; exact ⟨⟨2030, 2, 18⟩, rfl⟩) [] [] 0

/-- Claim C2 counterexample: a validated row with the malformed trip date
"martes 18" reaches `parse_fecha`, whose `ValueError` is uncaught: the run
aborts and the following (valid) row is never processed, contradicting the
claim that no per-row rejection terminates the run. -/
theorem malformed_date_aborts_run_cx :
    runPipeline gprovTop rprovOne hoy2025 0 [rowMadridBadDate, rowMadrid]
      [] [] 0 = .error (str "ValueError: time data does not match format") ∧
    ∀ res, runPipeline gprovTop rprovOne hoy2025 0 [rowMadridBadDate, rowMadrid]
      [] [] 0 ≠ .ok res := by
  have h0 : runPipeline gprovTop rprovOne hoy2025 0 [rowMadridBadDate, rowMadrid]
      [] [] 0 = .error (str "ValueError: time data does not match format") := rfl
  exact ⟨h0, fun res h => by rw [h0] at h; exact Except.noConfusion h⟩

/-- Support for claim C10: the stop-list facts for a list with origin
first, destination last and at most two intermediate stops. -/
theorem feature_stop_facts (rprov : List GeoPoint → RouteResp)
    (vid fecha hs hl : Str) (stops_geo : List GeoPoint) (O D : Str)
    (mid : List Str) (hm : mid.length ≤ 2)
    (hlen : stops_geo.length = (O :: (mid ++ [D])).length) :
    (O :: (mid ++ [D])).head? = some O ∧
    (O :: (mid ++ [D])).getLast? = some D ∧
    2 ≤ (O :: (mid ++ [D])).length ∧ (O :: (mid ++ [D])).length ≤ 4 ∧
    (build_feature_route rprov vid fecha hs hl (O :: (mid ++ [D]))
      stops_geo).num_paradas + 2 = (O :: (mid ++ [D])).length ∧
    (build_feature_route rprov vid fecha hs hl (O :: (mid ++ [D]))
      stops_geo).num_paradas ≤ 2 ∧
    2 ≤ (stops_geo.map fun p => (p.lon, p.lat)).length := by
  have hnum : (build_feature_route rprov vid fecha hs hl (O :: (mid ++ [D]))
      stops_geo).num_paradas = mid.length := by
    show ((O :: (mid ++ [D])).drop 1).dropLast.length = mid.length
    simp
  refine ⟨rfl, ?_, ?_, ?_, ?_, ?_, ?_⟩
  · rw [show O :: (mid ++ [D]) = (O :: mid) ++ [D] by simp, List.getLast?_concat]
  · simp
  · simp
    omega
  · rw [hnum]
    simp
  · rw [hnum]
    exact hm
  · rw [List.length_map, hlen]
    simp

/-- Claim C10: for a row whose origin and destination cells pass
validation (non-blank `get_text` output), the constructed stop list keeps
the origin first and the destination last, has length between 2 and 4
(that is, 0 to 2 intermediate stops survive the defensive filter, which
never removes origin or destination), the emitted feature has
`num_paradas` equal to length - 2, hence at most 2, and the straight-line
fallback coordinate list (one pair per geocoded stop) has at least two
entries. -/
theorem stops_origin_first_destination_last_bounds (cO cD cP1 cP2 : Cell)
    (rprov : List GeoPoint → RouteResp) (vid fecha hs hl : Str)
    (stops_geo : List GeoPoint)
    (hO : get_text cO ≠ []) (hD : get_text cD ≠ [])
    (hlen : stops_geo.length =
      (buildStops (get_text cO) (get_text cP1) (get_text cP2) (get_text cD)).length) :
    (buildStops (get_text cO) (get_text cP1) (get_text cP2) (get_text cD)).head? =
      some (get_text cO) ∧
    (buildStops (get_text cO) (get_text cP1) (get_text cP2) (get_text cD)).getLast? =
      some (get_text cD) ∧
    2 ≤ (buildStops (get_text cO) (get_text cP1) (get_text cP2) (get_text cD)).length ∧
    (buildStops (get_text cO) (get_text cP1) (get_text cP2) (get_text cD)).length ≤ 4 ∧
    (build_feature_route rprov vid fecha hs hl
      (buildStops (get_text cO) (get_text cP1) (get_text cP2) (get_text cD))
      stops_geo).num_paradas + 2 =
      (buildStops (get_text cO) (get_text cP1) (get_text cP2) (get_text cD)).length ∧
    (build_feature_route rprov vid fecha hs hl
      (buildStops (get_text cO) (get_text cP1) (get_text cP2) (get_text cD))
      stops_geo).num_paradas ≤ 2 ∧
    2 ≤ (stops_geo.map fun p => (p.lon, p.lat)).length := by
  have heq : buildStops (get_text cO) (get_text cP1) (get_text cP2) (get_text cD) =
      get_text cO :: (((if get_text cP1 = [] then [] else [get_text cP1]) ++
        (if get_text cP2 = [] then [] else [get_text cP2])) ++ [get_text cD]) := by
    rw [buildStops_eq (get_text cO) (get_text cP1) (get_text cP2) (get_text cD)
      (keepStop_get_text cO hO) (keepStop_get_text cD hD)
      (get_text_nil_or_keep cP1) (get_text_nil_or_keep cP2)]
    simp
  rw [heq] at hlen ⊢
  refine feature_stop_facts rprov vid fecha hs hl stops_geo _ _ _ ?_ hlen
  by_cases h1 : get_text cP1 = [] <;> by_cases h2 : get_text cP2 = [] <;>
    simp [h1, h2]

theorem stops_origin_first_destination_last_bounds_witness :
    (buildStops (get_text (some (some (str "Madrid"))))
      (get_text (some (some (str "Zaragoza")))) (get_text none)
      (get_text (some (some (str "Barcelona"))))).head? =
      some (get_text (some (some (str "Madrid")))) ∧
    (build_feature_route rprovOne (str "T1") (str "2030-02-18") (str "09:05")
      (str "11:00")
      (buildStops (get_text (some (some (str "Madrid"))))
        (get_text (some (some (str "Zaragoza")))) (get_text none)
        (get_text (some (some (str "Barcelona")))))
      [⟨40, -3, none⟩, ⟨41, -1, none⟩, ⟨41, 2, none⟩]).num_paradas ≤ 2 := by
  have h := stops_origin_first_destination_last_bounds
    (some (some (str "Madrid"))) (some (some (str "Barcelona")))
    (some (some (str "Zaragoza"))) none rprovOne (str "T1") (str "2030-02-18")
    (str "09:05") (str "11:00") [⟨40, -3, none⟩, ⟨41, -1, none⟩, ⟨41, 2, none⟩]
    (by decide) (by decide) (by decide)
  exact ⟨h.1, h.2.2.2.2.2.1⟩
